import Mathlib

/-!
Verification of the multipart upload engine of the minio `fs` package
(fs-multipart.go).  The Go code is shallowly embedded: the filesystem is a
finite map from paths to byte lists, session journals are sequences of the
JSON documents they hold, the in-memory session map and its persisted copy
are association lists, and every public operation is a pure function from a
state and its inputs to a new state and a Go-style result.  Cryptographic
digests, base64 decoding, the XML manifest parser and the name validators
are external to the embedded file and enter as parameters of an `Env`
record; the operations themselves are translated line by line from the
source.
-/

/-- A byte sequence; each entry is one byte value. -/
abbrev Bytes := List Nat

/-- The byte-file portion of the filesystem: object files and part files,
as an association list from absolute path to content. -/
abbrev Disk := List (String × Bytes)

/-- Association-list lookup (Go map read / file open by path). -/
def alookup {α : Type} : List (String × α) → String → Option α
  | [], _ => none
  | (k, v) :: t, key => if k = key then some v else alookup t key

/-- Association-list write (Go map assignment / file publish). Replaces the
existing entry in place or appends a fresh one. -/
def aset {α : Type} : List (String × α) → String → α → List (String × α)
  | [], key, v => [(key, v)]
  | (k, w) :: t, key, v => if k = key then (k, v) :: t else (k, w) :: aset t key v

/-- Association-list delete (Go map delete / file removal). -/
def aerase {α : Type} : List (String × α) → String → List (String × α)
  | [], _ => []
  | (k, w) :: t, key => if k = key then aerase t key else (k, w) :: aerase t key

/-- Lowercase hex digit for a nibble, as produced by Go hex.EncodeToString. -/
def hexDigitChar (n : Nat) : Char :=
  if n < 10 then Char.ofNat (48 + n) else Char.ofNat (87 + n)

/-- Go hex.EncodeToString: two lowercase hex digits per byte. -/
def hexEncode (bs : Bytes) : String :=
  String.mk (bs.foldr (fun b acc => hexDigitChar (b / 16 % 16) :: hexDigitChar (b % 16) :: acc) [])

/-- Value of one hex digit, upper or lower case, as in Go hex.DecodeString. -/
def hexDigitVal (c : Char) : Option Nat :=
  if 48 ≤ c.toNat ∧ c.toNat ≤ 57 then some (c.toNat - 48)
  else if 97 ≤ c.toNat ∧ c.toNat ≤ 102 then some (c.toNat - 87)
  else if 65 ≤ c.toNat ∧ c.toNat ≤ 70 then some (c.toNat - 55)
  else none

/-- Go hex.DecodeString over a character list: pairs of hex digits, failing
on an odd length or a non-hex character. -/
def hexDecodeChars : List Char → Option Bytes
  | [] => some []
  | [_] => none
  | a :: b :: rest =>
    match hexDigitVal a, hexDigitVal b, hexDecodeChars rest with
    | some x, some y, some t => some ((16 * x + y) :: t)
    | _, _, _ => none

/-- Go hex.DecodeString. -/
def hexDecode (s : String) : Option Bytes := hexDecodeChars s.data

/-- Go strings.Trim(s, quote): strips leading and trailing double-quote
characters, as applied to manifest ETags in concatParts. -/
def trimQuotes (s : String) : String :=
  String.mk (((s.data.dropWhile (fun c => c = '"')).reverse.dropWhile (fun c => c = '"')).reverse)

/-- UTF-8 independent byte view of a string used to build test data. -/
def strBytes (s : String) : Bytes := s.data.map Char.toNat

/-- Go strings.HasPrefix over character lists. -/
def hasPrefixChars : List Char → List Char → Bool
  | _, [] => true
  | [], _ :: _ => false
  | a :: s, b :: p => a = b && hasPrefixChars s p

/-- Go strings.HasPrefix(s, p). -/
def strStarts (s p : String) : Bool := hasPrefixChars s.data p.data

/-- ASCII whitespace, as trimmed by Go strings.TrimSpace on the inputs that
matter here (digest header values). -/
def isSpaceChar (c : Char) : Bool := c = ' ' ∨ c = '\t' ∨ c = '\n' ∨ c = '\r'

/-- Go strings.TrimSpace over the character list. -/
def trimSpace (s : String) : String :=
  String.mk (((s.data.dropWhile isSpaceChar).reverse.dropWhile isSpaceChar).reverse)

/-- ASCII lower-casing of one character. -/
def lowerChar (c : Char) : Char :=
  if 65 ≤ c.toNat ∧ c.toNat ≤ 90 then Char.ofNat (c.toNat + 32) else c

/-- ASCII lower-casing, for the case-insensitive hex digest comparison. -/
def strToLower (s : String) : String := String.mk (s.data.map lowerChar)

/-- Lexicographic order on character lists by code point; on UTF-8 data
this coincides with the byte-wise Go string order. -/
def charListLt : List Char → List Char → Bool
  | [], [] => false
  | [], _ :: _ => true
  | _ :: _, [] => false
  | a :: s, b :: t => if a < b then true else if b < a then false else charListLt s t

/-- The Go string order a < b. -/
def strLt (a b : String) : Bool := charListLt a.data b.data

/-- Insert into a list ordered by the strict comparator lt (sort.Sort model,
insertion variant; the comparators used here never see ties that matter). -/
def insertSorted {α : Type} (lt : α → α → Bool) (x : α) : List α → List α
  | [] => [x]
  | y :: t => if lt x y then x :: y :: t else y :: insertSorted lt x t

/-- Sort by the strict comparator lt; models Go sort.Sort with a Less
function. -/
def insertionSort {α : Type} (lt : α → α → Bool) : List α → List α
  | [] => []
  | x :: t => insertSorted lt x (insertionSort lt t)

/-- PartMetadata of fs: one recorded part of a session. Times are abstract
naturals. -/
structure PartMetadata where
  etag : String
  partNumber : Int
  size : Int
  lastModified : Nat
deriving DecidableEq, Repr

/-- MultipartSession of fs: one session descriptor, as held in the session
map and as one JSON document of a session journal. -/
structure MultipartSession where
  totalParts : Int
  uploadID : String
  initiated : Nat
  parts : List PartMetadata
deriving DecidableEq, Repr

/-- UploadMetadata of fs, as returned by ListMultipartUploads. -/
structure UploadMetadata where
  object : String
  uploadID : String
  initiated : Nat
deriving DecidableEq, Repr

/-- One Part element of the CompleteMultipartUpload XML manifest. -/
structure CompletePart where
  partNumber : Int
  etag : String
deriving DecidableEq, Repr

/-- ObjectMetadata of fs, as returned by CompleteMultipartUpload. -/
structure ObjectMetadata where
  bucket : String
  object : String
  created : Nat
  size : Int
  contentType : String
  md5 : String
deriving DecidableEq, Repr

/-- BucketMultipartResourcesMetadata: input markers and output listing of
ListMultipartUploads. The Go field Prefix is rendered prefixKey. -/
structure BucketMultipartResourcesMetadata where
  prefixKey : String := ""
  keyMarker : String := ""
  uploadIDMarker : String := ""
  maxUploads : Int := 0
  upload : List UploadMetadata := []
  nextKeyMarker : String := ""
  nextUploadIDMarker : String := ""
  isTruncated : Bool := false
deriving DecidableEq, Repr

/-- ObjectResourcesMetadata: input markers and output listing of
ListObjectParts. -/
structure ObjectResourcesMetadata where
  bucket : String := ""
  object : String := ""
  uploadID : String := ""
  partNumberMarker : Int := 0
  nextPartNumberMarker : Int := 0
  maxParts : Int := 0
  isTruncated : Bool := false
  part : List PartMetadata := []
deriving DecidableEq, Repr

/-- The structured error kinds surfaced by the engine; probe.NewError over a
plain Go error is goError with its message, and probe.NewError applied to a
nil error value (the CompleteMultipartUpload signature branch) is
nilWrapped. -/
inductive ErrKind where
  | bucketNameInvalid (bucket : String)
  | objectNameInvalid (object : String)
  | bucketNotFound (bucket : String)
  | internalError
  | rootPathFull
  | invalidUploadID (uploadID : String)
  | invalidDigest (md5 : String)
  | badDigest (md5 : String)
  | signatureDoesNotMatch
  | malformedXML
  | invalidPartOrder
  | goError (msg : String)
  | nilWrapped
deriving DecidableEq, Repr

/-- Go-style outcome of an operation: a value, a probe error, or a runtime
fault (index out of range). -/
inductive GoResult (α : Type) where
  | ok (a : α)
  | err (e : ErrKind)
  | panicked
deriving DecidableEq, Repr

/-- Outcome of Signature.DoesSignatureMatch: matched, mismatched, or an
internal verifier error. -/
inductive SigResult where
  | ok
  | mismatch
  | fail (e : ErrKind)

/-- A signature verifier: given the hex SHA-256 it is fed, report the
outcome. -/
abbrev Signature := String → SigResult

/-- External collaborators of the embedded file, entering as parameters:
the name validators IsValidBucket and IsValidObjectName (consumed as
predicates per the spec), the MD5 and SHA-256 digest functions (md5d and
sha256d give the raw digest bytes of a byte sequence), Go
base64.StdEncoding.DecodeString, and the XML decoder for the
CompleteMultipartUpload manifest. -/
structure Env where
  isValidBucket : String → Bool
  isValidObjectName : String → Bool
  md5d : Bytes → Bytes
  sha256d : Bytes → Bytes
  b64Decode : String → Option Bytes
  parseCompleteMultipartUpload : Bytes → Option (List CompletePart)

/-- The Filesystem state: storage root, existing bucket directories, the
byte files on disk, the session journal files (each a sequence of decoded
JSON documents), the in-memory session map fs.multiparts.ActiveSession, the
copy of the map last persisted by SaveMultipartsSession, and the outcome of
the disk-space guard (int64(availableDiskSpace) <= fs.minFreeDisk, the
float computation abstracted to its boolean result). -/
structure FSState where
  root : String
  buckets : List String
  disk : Disk
  journals : List (String × List MultipartSession)
  activeSession : List (String × MultipartSession)
  savedSession : List (String × MultipartSession)
  diskGuardLow : Bool
deriving DecidableEq, Repr

/-- filepath.Join(fs.path, bucket). -/
def bucketPathOf (st : FSState) (bucket : String) : String := st.root ++ "/" ++ bucket

/-- filepath.Join(bucketPath, object). -/
def objectPathOf (st : FSState) (bucket object : String) : String :=
  bucketPathOf st bucket ++ "/" ++ object

/-- objectPath + fmt.Sprintf of the dollar sign and the decimal partID. -/
def partPathOf (objectPath : String) (partID : Int) : String :=
  objectPath ++ "$" ++ toString partID

/-- The session journal sidecar path for an object. -/
def journalPathOf (objectPath : String) : String := objectPath ++ "$multiparts"

/-- fs.isValidUploadID: the object has an active session whose UploadID
equals the supplied one. -/
def isValidUploadID (st : FSState) (object uploadID : String) : Bool :=
  match alookup st.activeSession object with
  | none => false
  | some s => uploadID = s.uploadID

/-- Modelled from the spec: SaveMultipartsSession is defined outside the
included sources; per section 6 of the spec it writes the entire in-memory
session map to the well-known configuration file. The persisted copy is the
map value itself. -/
def SaveMultipartsSession (m : List (String × MultipartSession)) :
    List (String × MultipartSession) := m

/-- Modelled from the spec: isMD5SumEqual is defined outside the included
sources; per the spec it compares the expected and computed hex MD5 strings
with case-insensitive equality (hex-decode both and compare the bytes). -/
def isMD5SumEqual (expected actual : String) : Bool :=
  strToLower expected = strToLower actual

/-- Modelled from the spec: the Less comparator of completedParts is absent
from the included sources; sections 4.7 (step 6) and 7 specify that the
order check rejects exactly the manifests whose partNumbers are not in
strictly ascending order, which Go sort.IsSorted realizes with this
non-strict PartNumber comparator. -/
def completedPartsLess (a b : CompletePart) : Bool :=
  decide (a.partNumber ≤ b.partNumber)

/-- Go sort.IsSorted over completedParts: no adjacent pair with
Less(next, previous). With the spec-modelled comparator this accepts
exactly the strictly ascending manifests. -/
def completedPartsIsSorted : List CompletePart → Bool
  | [] => true
  | [_] => true
  | a :: b :: rest => !completedPartsLess b a && completedPartsIsSorted (b :: rest)

/-- The strictly-ascending order on the manifest partNumbers, in the words
of the spec; used to state claim C5. -/
def strictlyAscending : List Int → Bool
  | [] => true
  | [_] => true
  | a :: b :: rest => decide (a < b) && strictlyAscending (b :: rest)

/-- The partNumber sorter of the source: Less compares PartNumber with
the strict order. -/
def partLess (a b : PartMetadata) : Bool := decide (a.partNumber < b.partNumber)

/-- sort.Sort(partNumber(parts)). -/
def sortParts (l : List PartMetadata) : List PartMetadata := insertionSort partLess l

/-- Modelled from the spec: the byUploadMetadataKey comparator lives outside
the included sources; per the spec listings are sorted by objectKey
ascending. Session-map keys are unique, so ties cannot arise. -/
def uploadKeyLess (a b : UploadMetadata) : Bool := strLt a.object b.object

/-- sort.Sort(byUploadMetadataKey(uploads)). -/
def sortUploads (l : List UploadMetadata) : List UploadMetadata :=
  insertionSort uploadKeyLess l

/-- The UploadMetadata record built for one session map entry inside
ListMultipartUploads. -/
def mkUpload (object : String) (s : MultipartSession) : UploadMetadata :=
  { object := object, uploadID := s.uploadID, initiated := s.initiated }

/-- The range loop of ListMultipartUploads over the session map. The Go map
iteration order is unspecified; the model iterates the association list in
its stored order, one admissible order. The truncation test fires before
the marker cases, exactly as in the source. -/
def listUploadsLoop (res : BucketMultipartResourcesMetadata) :
    List (String × MultipartSession) → List UploadMetadata →
    BucketMultipartResourcesMetadata
  | [], uploads => { res with upload := sortUploads uploads }
  | (object, session) :: rest, uploads =>
    if strStarts object res.prefixKey then
      if (uploads.length : Int) > res.maxUploads then
        { res with upload := sortUploads uploads, nextKeyMarker := object,
                   nextUploadIDMarker := session.uploadID, isTruncated := true }
      else
        let uploads1 :=
          if res.keyMarker ≠ "" ∧ res.uploadIDMarker = "" then
            if strLt res.keyMarker object then uploads ++ [mkUpload object session]
            else uploads
          else if res.keyMarker ≠ "" ∧ res.uploadIDMarker ≠ "" then
            if strLt res.uploadIDMarker session.uploadID ∧ !strLt object res.keyMarker then
              uploads ++ [mkUpload object session]
            else uploads
          else uploads ++ [mkUpload object session]
        listUploadsLoop res rest uploads1
    else listUploadsLoop res rest uploads

/-- fs.ListMultipartUploads. Read-only: the state is not returned. -/
def ListMultipartUploads (env : Env) (st : FSState) (bucket : String)
    (resources : BucketMultipartResourcesMetadata) :
    GoResult BucketMultipartResourcesMetadata :=
  if !env.isValidBucket bucket then .err (.bucketNameInvalid bucket)
  else if !st.buckets.contains bucket then .err (.bucketNotFound bucket)
  else .ok (listUploadsLoop resources st.activeSession [])

/-- fs.NewMultipartUpload. The generated uploadID (sha512 over an RNG draw,
the namespace and the clock) is an oracle input. The journal is created
with O_WRONLY|O_CREATE and the fresh descriptor becomes its first document;
the encoder writes at offset zero, so any decodable old content beyond it
is unreachable (only the first document is ever decoded) and is dropped by
the model. -/
def NewMultipartUpload (env : Env) (st : FSState) (bucket object : String)
    (uploadID : String) (now : Nat) : FSState × GoResult String :=
  if st.diskGuardLow then (st, .err .rootPathFull)
  else if !env.isValidBucket bucket then (st, .err (.bucketNameInvalid bucket))
  else if !env.isValidObjectName object then (st, .err (.objectNameInvalid object))
  else if !st.buckets.contains bucket then (st, .err (.bucketNotFound bucket))
  else
    let objectPath := objectPathOf st bucket object
    let sess : MultipartSession :=
      { totalParts := 0, uploadID := uploadID, initiated := now, parts := [] }
    let active := aset st.activeSession object sess
    let journals1 := aset st.journals (journalPathOf objectPath) [sess]
    let saved := SaveMultipartsSession active
    ({ st with activeSession := active, journals := journals1, savedSession := saved },
     .ok uploadID)

/-- io.CopyN(mw, data, size): the bytes written to the part file and the
hashers. A non-positive size copies nothing; a stream shorter than size is
the short-read error handled at the call site. -/
def copyNBytes (size : Int) (data : Bytes) : Bytes :=
  if size ≤ 0 then [] else data.take size.toNat

/-- The signature step shared by CreateObjectPart and
CompleteMultipartUpload: a nil verifier passes, otherwise the verifier is
fed the hex SHA-256. -/
def sigCheck (sig : Option Signature) (hexSha : String) : SigResult :=
  match sig with
  | none => .ok
  | some f => f hexSha

/-- fs.CreateObjectPart. The part file handle is an AtomicFile: its bytes
reach the part path only at Close (the rename), and CloseAndPurge leaves
the disk untouched. The journal is opened O_RDWR|O_APPEND, its first
document decoded, and the updated descriptor appended after the existing
documents; the shared parts slice is sorted in place before encoding, so
the map entry holds the sorted descriptor. SaveMultipartsSession is never
called here. -/
def CreateObjectPart (env : Env) (st : FSState)
    (bucket object uploadID expectedMD5Sum : String) (partID : Int) (size : Int)
    (data : Bytes) (signature : Option Signature) (now : Nat) :
    FSState × GoResult String :=
  if st.diskGuardLow then (st, .err .rootPathFull)
  else if partID ≤ 0 then
    (st, .err (.goError "invalid part id, cannot be zero or less than zero"))
  else if !env.isValidBucket bucket then (st, .err (.bucketNameInvalid bucket))
  else if !env.isValidObjectName object then (st, .err (.objectNameInvalid object))
  else if !isValidUploadID st object uploadID then (st, .err (.invalidUploadID uploadID))
  else
    let trimmed := trimSpace expectedMD5Sum
    let expectedHex? : Option (Option String) :=
      if trimmed = "" then some none
      else (env.b64Decode trimmed).map (fun bs => some (hexEncode bs))
    match expectedHex? with
    | none => (st, .err (.invalidDigest expectedMD5Sum))
    | some expectedHex =>
      if !st.buckets.contains bucket then (st, .err (.bucketNotFound bucket))
      else
        let objectPath := objectPathOf st bucket object
        let partPath := partPathOf objectPath partID
        if size > 0 ∧ (data.length : Int) < size then
          (st, .err (.goError "short read"))
        else
          let written := copyNBytes size data
          let md5sum := hexEncode (env.md5d written)
          if expectedHex.elim false (fun ehex => !isMD5SumEqual ehex md5sum) then
            (st, .err (.badDigest (expectedHex.getD "")))
          else
            match sigCheck signature (hexEncode (env.sha256d written)) with
            | .fail e => (st, .err e)
            | .mismatch => (st, .err .signatureDoesNotMatch)
            | .ok =>
              let disk1 := aset st.disk partPath written
              let partMetadata : PartMetadata :=
                { etag := md5sum, partNumber := partID,
                  size := (written.length : Int), lastModified := now }
              let journalPath := journalPathOf objectPath
              match alookup st.journals journalPath with
              | none => ({ st with disk := disk1 }, .err (.goError "open journal"))
              | some docs =>
                match docs.head? with
                | none => ({ st with disk := disk1 }, .err (.goError "decode journal"))
                | some firstDoc =>
                  let sorted : MultipartSession :=
                    { firstDoc with
                      parts := sortParts (firstDoc.parts ++ [partMetadata]),
                      totalParts := firstDoc.totalParts + 1 }
                  ({ st with disk := disk1,
                             activeSession := aset st.activeSession object sorted,
                             journals := aset st.journals journalPath (docs ++ [sorted]) },
                   .ok md5sum)

/-- fs.concatParts: read each referenced part file, check its MD5 against
the manifest ETag (quotes stripped, hex decoded), and accumulate the
concatenation written to the object handle and the MD5 hasher. -/
def concatParts (env : Env) (disk : Disk) (objectPath : String) :
    List CompletePart → Bytes → Except ErrKind Bytes
  | [], acc => .ok acc
  | p :: rest, acc =>
    match alookup disk (partPathOf objectPath p.partNumber) with
    | none => .error (.goError "open part")
    | some obj =>
      match hexDecode (trimQuotes p.etag) with
      | none => .error (.invalidDigest p.etag)
      | some recv =>
        if recv = env.md5d obj then concatParts env disk objectPath rest (acc ++ obj)
        else .error (.badDigest p.etag)

/-- The concatenation, in manifest order, of the on-disk contents of the
referenced part files; used only to state claims about the committed
object. -/
def referencedConcat (disk : Disk) (objectPath : String) :
    List CompletePart → Option Bytes
  | [] => some []
  | p :: rest =>
    match alookup disk (partPathOf objectPath p.partNumber),
          referencedConcat disk objectPath rest with
    | some obj, some t => some (obj ++ t)
    | _, _ => none

/-- One step of the commit: the events CompleteMultipartUpload emits, in
source order. -/
inductive CommitEvent where
  | deleteSessionEntry
  | removePartFile (n : Int)
  | removeJournal
  | saveSessions
  | renamePublish
deriving DecidableEq, Repr

/-- The part-file removal loop of CompleteMultipartUpload: os.Remove fails
on a missing file, aborting the loop. -/
def removePartFiles (objectPath : String) :
    Disk → List CompletePart → Disk × List CommitEvent × Option ErrKind
  | disk, [] => (disk, [], none)
  | disk, p :: rest =>
    match alookup disk (partPathOf objectPath p.partNumber) with
    | none => (disk, [], some (.goError "remove part"))
    | some _ =>
      let disk1 := aerase disk (partPathOf objectPath p.partNumber)
      match removePartFiles objectPath disk1 rest with
      | (disk2, evs, e?) => (disk2, .removePartFile p.partNumber :: evs, e?)

/-- fs.CompleteMultipartUpload. The object handle is an AtomicFile at the
object path; every failure before the final Close purges it, leaving the
object path untouched while keeping whatever map and disk mutations already
happened. In the verifier-error branch the source returns
probe.NewError(err) where err is the nil error of the preceding ReadAll,
not perr, hence nilWrapped. The third component is the emitted event
trace. -/
def CompleteMultipartUpload (env : Env) (st : FSState)
    (bucket object uploadID : String) (data : Bytes)
    (signature : Option Signature) (now : Nat) :
    FSState × GoResult ObjectMetadata × List CommitEvent :=
  if !env.isValidBucket bucket then (st, .err (.bucketNameInvalid bucket), [])
  else if !env.isValidObjectName object then (st, .err (.objectNameInvalid object), [])
  else if !isValidUploadID st object uploadID then
    (st, .err (.invalidUploadID uploadID), [])
  else if !st.buckets.contains bucket then (st, .err (.bucketNotFound bucket), [])
  else
    let objectPath := objectPathOf st bucket object
    match sigCheck signature (hexEncode (env.sha256d data)) with
    | .fail _ => (st, .err .nilWrapped, [])
    | .mismatch => (st, .err .signatureDoesNotMatch, [])
    | .ok =>
      match env.parseCompleteMultipartUpload data with
      | none => (st, .err .malformedXML, [])
      | some parts =>
        if !completedPartsIsSorted parts then (st, .err .invalidPartOrder, [])
        else
          match concatParts env st.disk objectPath parts [] with
          | .error e => (st, .err e, [])
          | .ok concatBytes =>
            let active := aerase st.activeSession object
            match removePartFiles objectPath st.disk parts with
            | (disk1, evs, some e) =>
              ({ st with activeSession := active, disk := disk1 },
               .err e, CommitEvent.deleteSessionEntry :: evs)
            | (disk1, evs, none) =>
              let journalPath := journalPathOf objectPath
              match alookup st.journals journalPath with
              | none =>
                ({ st with activeSession := active, disk := disk1 },
                 .err (.goError "remove journal"), CommitEvent.deleteSessionEntry :: evs)
              | some _ =>
                let journals1 := aerase st.journals journalPath
                let saved := SaveMultipartsSession active
                let disk2 := aset disk1 objectPath concatBytes
                let meta : ObjectMetadata :=
                  { bucket := bucket, object := object, created := now,
                    size := (concatBytes.length : Int),
                    contentType := "application/octet-stream",
                    md5 := hexEncode (env.md5d concatBytes) }
                ({ st with activeSession := active, disk := disk2,
                           journals := journals1, savedSession := saved },
                 .ok meta,
                 CommitEvent.deleteSessionEntry :: evs ++
                   [CommitEvent.removeJournal, CommitEvent.saveSessions,
                    CommitEvent.renamePublish])

/-- Outcome of the part-listing range loop of ListObjectParts. -/
inductive PartsLoopResult where
  | done (acc : List PartMetadata)
  | truncated (acc : List PartMetadata) (nextMarker : Int)
  | panicked
deriving DecidableEq, Repr

/-- The range loop of ListObjectParts: i runs from startPartNumber to
TotalParts; the truncation test fires before the access; the element read
is Parts at index i minus one, faulting when that index is out of range.
The fuel is the iteration count computed from the loop bounds. -/
def listPartsLoop (sessParts : List PartMetadata) (maxParts : Int) :
    Nat → Int → List PartMetadata → PartsLoopResult
  | 0, _, acc => .done acc
  | fuel + 1, i, acc =>
    if (acc.length : Int) > maxParts then .truncated acc i
    else if h : 0 ≤ i - 1 ∧ (i - 1).toNat < sessParts.length then
      listPartsLoop sessParts maxParts fuel (i + 1)
        (acc ++ [sessParts.get ⟨(i - 1).toNat, h.2⟩])
    else .panicked

/-- fs.ListObjectParts. Decodes only the first document of the session
journal. Read-only: the state is not returned. -/
def ListObjectParts (env : Env) (st : FSState) (bucket object : String)
    (resources : ObjectResourcesMetadata) : GoResult ObjectResourcesMetadata :=
  if !env.isValidBucket bucket then .err (.bucketNameInvalid bucket)
  else if !env.isValidObjectName object then .err (.objectNameInvalid object)
  else if !isValidUploadID st object resources.uploadID then
    .err (.invalidUploadID resources.uploadID)
  else
    let res0 := { resources with bucket := bucket, object := object }
    let startPartNumber : Int :=
      if res0.partNumberMarker = (0 : Int) then 1 else res0.partNumberMarker
    if !st.buckets.contains bucket then .err (.bucketNotFound bucket)
    else
      let objectPath := objectPathOf st bucket object
      match alookup st.journals (journalPathOf objectPath) with
      | none => .err (.goError "open journal")
      | some docs =>
        match docs.head? with
        | none => .err (.goError "decode journal")
        | some sess =>
          let fuel := (sess.totalParts - startPartNumber + 1).toNat
          match listPartsLoop sess.parts res0.maxParts fuel startPartNumber [] with
          | .done acc => .ok { res0 with part := sortParts acc }
          | .truncated acc i =>
            .ok { res0 with isTruncated := true, part := sortParts acc,
                            nextPartNumberMarker := i }
          | .panicked => .panicked

/-- fs.AbortMultipartUpload: remove the part file of every part recorded in
the in-memory session (os.RemoveAll, so a missing file is not an error),
delete the map entry, remove the journal. SaveMultipartsSession is never
called here. -/
def AbortMultipartUpload (env : Env) (st : FSState)
    (bucket object uploadID : String) : FSState × GoResult Unit :=
  if !env.isValidBucket bucket then (st, .err (.bucketNameInvalid bucket))
  else if !env.isValidObjectName object then (st, .err (.objectNameInvalid object))
  else if !isValidUploadID st object uploadID then (st, .err (.invalidUploadID uploadID))
  else if !st.buckets.contains bucket then (st, .err (.bucketNotFound bucket))
  else
    match alookup st.activeSession object with
    | none => (st, .err .internalError)
    | some s =>
      let objectPath := objectPathOf st bucket object
      let disk1 := s.parts.foldl
        (fun d p => aerase d (partPathOf objectPath p.partNumber)) st.disk
      ({ st with disk := disk1,
                 activeSession := aerase st.activeSession object,
                 journals := aerase st.journals (journalPathOf objectPath) },
       .ok ())

/-- The arguments of one CreateObjectPart call in a scenario. -/
structure CreateCall where
  expectedMD5 : String
  partID : Int
  size : Int
  data : Bytes
  signature : Option Signature
  now : Nat

/-- Run a sequence of CreateObjectPart calls, requiring every call to
succeed. -/
def runCreates (env : Env) (bucket object uploadID : String) :
    FSState → List CreateCall → Option FSState
  | st, [] => some st
  | st, c :: rest =>
    match CreateObjectPart env st bucket object uploadID c.expectedMD5 c.partID
        c.size c.data c.signature c.now with
    | (st1, .ok _) => runCreates env bucket object uploadID st1 rest
    | _ => none

/-- The descriptor well-formedness of claim C10: TotalParts counts the
Parts sequence. -/
def sessWF (s : MultipartSession) : Prop := s.totalParts = (s.parts.length : Int)

/-- Project the parts list out of a ListObjectParts result. -/
def goPart? : GoResult ObjectResourcesMetadata → Option (List PartMetadata)
  | .ok r => some r.part
  | _ => none

/-- Did a commit succeed. -/
def isOkMeta : GoResult ObjectMetadata → Bool
  | .ok _ => true
  | _ => false

/-!
## Concrete scenario material

A small environment and states used by the witnesses and counterexamples.
The demo digest functions are short byte projections; every general theorem
below quantifies over the environment, so any concrete one serves.
-/

/-- A concrete environment: b and o are the valid names, digests are short
byte projections, and the one accepted base64 input QUE= decodes to two
bytes 65. -/
def demoEnv : Env where
  isValidBucket := fun b => b == "b"
  isValidObjectName := fun o => o == "o"
  md5d := fun bs => bs.take 2
  sha256d := fun bs => bs.take 1
  b64Decode := fun s => if s == "QUE=" then some [65, 65] else none
  parseCompleteMultipartUpload := fun _ => none

/-- A zero-part session descriptor with the given uploadID. -/
def freshSession (u : String) : MultipartSession :=
  { totalParts := 0, uploadID := u, initiated := 0, parts := [] }

/-- Empty store with one bucket b. -/
def c1St0 : FSState :=
  { root := "r", buckets := ["b"], disk := [], journals := [],
    activeSession := [], savedSession := [], diskGuardLow := false }

/-- The state after NewMultipartUpload for (b, o) with uploadID u. -/
def c1St1 : FSState := (NewMultipartUpload demoEnv c1St0 "b" "o" "u" 0).1

/-- Two part uploads with ascending partIDs 1, 2 of five bytes each. -/
def c1Calls : List CreateCall :=
  [{ expectedMD5 := "", partID := 1, size := 5, data := strBytes "hello",
     signature := none, now := 1 },
   { expectedMD5 := "", partID := 2, size := 5, data := strBytes "world",
     signature := none, now := 2 }]

/-- The state after both part uploads. -/
def c1St2 : FSState := (runCreates demoEnv "b" "o" "u" c1St1 c1Calls).getD c1St0

/-- Five sessions under object keys a..e, iterated in that order. -/
def c4St : FSState :=
  { root := "r", buckets := ["b"], disk := [], journals := [],
    activeSession := [("a", freshSession "ua"), ("b", freshSession "ub"),
                      ("c", freshSession "uc"), ("d", freshSession "ud"),
                      ("e", freshSession "ue")],
    savedSession := [], diskGuardLow := false }

/-- A commit manifest referencing parts 1 and 2 with the demo digests of
hello and world. -/
def c3Manifest : List CompletePart :=
  [{ partNumber := 1, etag := "6865" }, { partNumber := 2, etag := "776f" }]

/-- demoEnv whose manifest parser accepts the byte 1 as c3Manifest. -/
def c3Env : Env :=
  { demoEnv with
    parseCompleteMultipartUpload := fun bs => if bs = [1] then some c3Manifest else none }

/-- Session state holding parts 1 and 2 plus an extra on-disk part file 3
that no manifest references. -/
def c3St : FSState :=
  { root := "r", buckets := ["b"],
    disk := [("r/b/o$1", strBytes "hello"), ("r/b/o$2", strBytes "world"),
             ("r/b/o$3", [9])],
    journals := [("r/b/o$multiparts", [freshSession "u"])],
    activeSession := [("o", freshSession "u")],
    savedSession := [("o", freshSession "u")],
    diskGuardLow := false }

/-- A manifest with two entries of equal partNumber 1. -/
def c5Manifest : List CompletePart :=
  [{ partNumber := 1, etag := "6865" }, { partNumber := 1, etag := "6865" }]

/-- demoEnv whose manifest parser accepts the byte 2 as c5Manifest. -/
def c5Env : Env :=
  { demoEnv with
    parseCompleteMultipartUpload := fun bs =>
      if bs = [2] then some c5Manifest else none }

/-- A verifier that always reports an internal error. -/
def failSig : Signature := fun _ => SigResult.fail (.goError "verifier io error")

/-!
## Support lemmas: association lists, sorting, paths
-/

theorem alookup_aset_self {α : Type} (m : List (String × α)) (k : String) (v : α) :
    alookup (aset m k v) k = some v := by
  induction m with
  | nil => simp [aset, alookup]
  | cons h t ih =>
    obtain ⟨k2, w⟩ := h
    by_cases hk : k2 = k
    · simp [aset, hk, alookup]
    · simp [aset, hk, alookup, ih]

theorem alookup_aset_ne {α : Type} (m : List (String × α)) (k k2 : String) (v : α)
    (h : k2 ≠ k) : alookup (aset m k v) k2 = alookup m k2 := by
  induction m with
  | nil => simp [aset, alookup, Ne.symm h]
  | cons hd t ih =>
    obtain ⟨k3, w⟩ := hd
    by_cases hk : k3 = k
    · subst hk
      simp [aset, alookup, Ne.symm h]
    · simp only [aset, if_neg hk]
      by_cases h32 : k3 = k2
      · simp [alookup, h32]
      · simp [alookup, h32, ih]

theorem alookup_aerase {α : Type} (m : List (String × α)) (k k2 : String) :
    alookup (aerase m k) k2 = if k2 = k then none else alookup m k2 := by
  induction m with
  | nil => simp [aerase, alookup]
  | cons hd t ih =>
    obtain ⟨k3, w⟩ := hd
    by_cases hk : k3 = k
    · subst hk
      rw [show aerase ((k3, w) :: t) k3 = aerase t k3 from by simp [aerase], ih]
      by_cases h2 : k2 = k3
      · simp [h2]
      · simp [h2, alookup, Ne.symm h2]
    · rw [show aerase ((k3, w) :: t) k = (k3, w) :: aerase t k from by simp [aerase, hk]]
      by_cases h32 : k3 = k2
      · subst h32
        simp [alookup, hk]
      · simp only [alookup, if_neg h32, ih]

theorem alookup_aerase_self {α : Type} (m : List (String × α)) (k : String) :
    alookup (aerase m k) k = none := by
  simp [alookup_aerase]

theorem alookup_aerase_of_none {α : Type} (m : List (String × α)) (k k2 : String)
    (h : alookup m k2 = none) : alookup (aerase m k) k2 = none := by
  rw [alookup_aerase]
  by_cases h2 : k2 = k <;> simp [h2, h]

theorem length_insertSorted {α : Type} (lt : α → α → Bool) (x : α) (l : List α) :
    (insertSorted lt x l).length = l.length + 1 := by
  induction l with
  | nil => rfl
  | cons y t ih =>
    cases h : lt x y <;> simp [insertSorted, h, ih]

theorem length_insertionSort {α : Type} (lt : α → α → Bool) (l : List α) :
    (insertionSort lt l).length = l.length := by
  induction l with
  | nil => rfl
  | cons x t ih => simp [insertionSort, length_insertSorted, ih]

theorem self_ne_self_append_dollar (s t : String) : s ≠ s ++ "$" ++ t := by
  intro h
  have h2 := congrArg String.length h
  rw [String.length_append, String.length_append] at h2
  have h3 : "$".length = 1 := rfl
  omega

theorem objectPath_ne_partPath (op : String) (n : Int) : op ≠ partPathOf op n :=
  self_ne_self_append_dollar op (toString n)

theorem objectPath_ne_journalPath (op : String) : op ≠ journalPathOf op := by
  intro h
  have h2 := congrArg String.length h
  rw [journalPathOf, String.length_append] at h2
  have h3 : "$multiparts".length = 11 := rfl
  omega

theorem concatParts_referenced (env : Env) (disk : Disk) (op : String) :
    ∀ (parts : List CompletePart) (acc bts : Bytes),
      concatParts env disk op parts acc = .ok bts →
      ∃ t, referencedConcat disk op parts = some t ∧ bts = acc ++ t := by
  intro parts
  induction parts with
  | nil =>
    intro acc bts h
    simp only [concatParts] at h
    cases h
    exact ⟨[], by simp [referencedConcat]⟩
  | cons p rest ih =>
    intro acc bts h
    simp only [concatParts] at h
    cases hl : alookup disk (partPathOf op p.partNumber) with
    | none => rw [hl] at h; simp at h
    | some obj =>
      rw [hl] at h
      cases hd : hexDecode (trimQuotes p.etag) with
      | none => rw [hd] at h; simp at h
      | some recv =>
        rw [hd] at h
        simp only at h
        by_cases he : recv = env.md5d obj
        · rw [if_pos he] at h
          obtain ⟨t, ht, hb⟩ := ih (acc ++ obj) bts h
          exact ⟨obj ++ t, by simp [referencedConcat, hl, ht],
                 by simp [hb, List.append_assoc]⟩
        · rw [if_neg he] at h; simp at h

theorem concatParts_no_order_error (env : Env) (disk : Disk) (op : String) :
    ∀ (parts : List CompletePart) (acc : Bytes) (e : ErrKind),
      concatParts env disk op parts acc = .error e → e ≠ .invalidPartOrder := by
  intro parts
  induction parts with
  | nil =>
    intro acc e h
    simp [concatParts] at h
  | cons p rest ih =>
    intro acc e h
    simp only [concatParts] at h
    cases hl : alookup disk (partPathOf op p.partNumber) with
    | none => rw [hl] at h; simp only at h; cases h; simp
    | some obj =>
      rw [hl] at h
      cases hd : hexDecode (trimQuotes p.etag) with
      | none => rw [hd] at h; simp only at h; cases h; simp
      | some recv =>
        rw [hd] at h
        simp only at h
        by_cases he : recv = env.md5d obj
        · rw [if_pos he] at h
          exact ih _ _ h
        · rw [if_neg he] at h; cases h; simp

theorem removePartFiles_ok_events (op : String) :
    ∀ (parts : List CompletePart) (disk disk1 : Disk) (evs : List CommitEvent),
      removePartFiles op disk parts = (disk1, evs, none) →
      evs = parts.map (fun p => CommitEvent.removePartFile p.partNumber) := by
  intro parts
  induction parts with
  | nil =>
    intro disk disk1 evs h
    simp only [removePartFiles] at h
    cases h
    rfl
  | cons p rest ih =>
    intro disk disk1 evs h
    simp only [removePartFiles] at h
    cases hl : alookup disk (partPathOf op p.partNumber) with
    | none => rw [hl] at h; simp only at h; cases h
    | some obj =>
      rw [hl] at h
      simp only at h
      cases hr : removePartFiles op (aerase disk (partPathOf op p.partNumber)) rest with
      | mk disk2 rest2 =>
        rw [hr] at h
        obtain ⟨evs2, e?⟩ := rest2
        cases h
        simp [ih _ _ _ hr]

theorem removePartFiles_err_no_order (op : String) :
    ∀ (parts : List CompletePart) (disk disk1 : Disk) (evs : List CommitEvent)
      (e : ErrKind), removePartFiles op disk parts = (disk1, evs, some e) →
      e = .goError "remove part" := by
  intro parts
  induction parts with
  | nil =>
    intro disk disk1 evs e h
    simp only [removePartFiles] at h
    cases h
  | cons p rest ih =>
    intro disk disk1 evs e h
    simp only [removePartFiles] at h
    cases hl : alookup disk (partPathOf op p.partNumber) with
    | none => rw [hl] at h; simp only at h; cases h; rfl
    | some obj =>
      rw [hl] at h
      simp only at h
      cases hr : removePartFiles op (aerase disk (partPathOf op p.partNumber)) rest with
      | mk disk2 rest2 =>
        rw [hr] at h
        obtain ⟨evs2, e?⟩ := rest2
        cases h
        exact ih _ _ _ _ hr

theorem removePartFiles_preserves_none (op : String) :
    ∀ (parts : List CompletePart) (disk disk1 : Disk) (evs : List CommitEvent)
      (e? : Option ErrKind), removePartFiles op disk parts = (disk1, evs, e?) →
      ∀ k, alookup disk k = none → alookup disk1 k = none := by
  intro parts
  induction parts with
  | nil =>
    intro disk disk1 evs e? h k hk
    simp only [removePartFiles] at h
    cases h
    exact hk
  | cons p rest ih =>
    intro disk disk1 evs e? h k hk
    simp only [removePartFiles] at h
    cases hl : alookup disk (partPathOf op p.partNumber) with
    | none => rw [hl] at h; simp only at h; cases h; exact hk
    | some obj =>
      rw [hl] at h
      simp only at h
      cases hr : removePartFiles op (aerase disk (partPathOf op p.partNumber)) rest with
      | mk disk2 rest2 =>
        rw [hr] at h
        obtain ⟨evs2, e2?⟩ := rest2
        cases h
        exact ih _ _ _ _ hr k (alookup_aerase_of_none _ _ _ hk)

theorem removePartFiles_ok_removed (op : String) :
    ∀ (parts : List CompletePart) (disk disk1 : Disk) (evs : List CommitEvent),
      removePartFiles op disk parts = (disk1, evs, none) →
      ∀ p ∈ parts, alookup disk1 (partPathOf op p.partNumber) = none := by
  intro parts
  induction parts with
  | nil =>
    intro disk disk1 evs h p hp
    cases hp
  | cons q rest ih =>
    intro disk disk1 evs h p hp
    simp only [removePartFiles] at h
    cases hl : alookup disk (partPathOf op q.partNumber) with
    | none => rw [hl] at h; simp only at h; cases h
    | some obj =>
      rw [hl] at h
      simp only at h
      cases hr : removePartFiles op (aerase disk (partPathOf op q.partNumber)) rest with
      | mk disk2 rest2 =>
        rw [hr] at h
        obtain ⟨evs2, e2?⟩ := rest2
        cases h
        cases List.mem_cons.mp hp with
        | inl hq =>
          subst hq
          exact removePartFiles_preserves_none op rest _ _ _ _ hr _
            (alookup_aerase_self _ _)
        | inr hq => exact ih _ _ _ hr p hq

theorem foldl_aerase_preserves_none (op : String) (ps : List PartMetadata) :
    ∀ (d : Disk) (k : String), alookup d k = none →
      alookup (ps.foldl (fun d p => aerase d (partPathOf op p.partNumber)) d) k = none := by
  induction ps with
  | nil => intro d k hk; exact hk
  | cons p rest ih =>
    intro d k hk
    exact ih _ _ (alookup_aerase_of_none _ _ _ hk)

theorem foldl_aerase_removed (op : String) (ps : List PartMetadata) :
    ∀ (d : Disk) (p : PartMetadata), p ∈ ps →
      alookup (ps.foldl (fun d p => aerase d (partPathOf op p.partNumber)) d)
        (partPathOf op p.partNumber) = none := by
  induction ps with
  | nil => intro d p hp; cases hp
  | cons q rest ih =>
    intro d p hp
    cases List.mem_cons.mp hp with
    | inl hq =>
      subst hq
      exact foldl_aerase_preserves_none op rest _ _ (alookup_aerase_self _ _)
    | inr hq => exact ih _ p hq

theorem newMultipartUpload_ok (env : Env) (st st1 : FSState)
    (bucket object u : String) (now : Nat) (r : String)
    (h : NewMultipartUpload env st bucket object u now = (st1, .ok r)) :
    r = u ∧
    st1 = { st with
            activeSession := aset st.activeSession object
              { totalParts := 0, uploadID := u, initiated := now, parts := [] },
            journals := aset st.journals
              (journalPathOf (objectPathOf st bucket object))
              [{ totalParts := 0, uploadID := u, initiated := now, parts := [] }],
            savedSession := aset st.activeSession object
              { totalParts := 0, uploadID := u, initiated := now, parts := [] } } ∧
    env.isValidBucket bucket = true ∧ env.isValidObjectName object = true ∧
    st.buckets.contains bucket = true ∧ st.diskGuardLow = false := by
  simp only [NewMultipartUpload, SaveMultipartsSession] at h
  split at h
  · simp at h
  next hguard =>
    split at h
    · simp at h
    next hvb =>
      split at h
      · simp at h
      next hvo =>
        split at h
        · simp at h
        next hbk =>
          injection h with h1 h2
          injection h2 with h2
          subst h1
          refine ⟨h2.symm, rfl, ?_, ?_, ?_, ?_⟩
          · simpa using hvb
          · simpa using hvo
          · simpa using hbk
          · simpa using hguard

theorem createObjectPart_ok (env : Env) (st st1 : FSState)
    (bucket object uploadID expectedMD5Sum : String) (partID size : Int)
    (data : Bytes) (sig : Option Signature) (now : Nat) (etag : String)
    (h : CreateObjectPart env st bucket object uploadID expectedMD5Sum partID size
          data sig now = (st1, .ok etag)) :
    ∃ docs firstDoc,
      alookup st.journals (journalPathOf (objectPathOf st bucket object)) = some docs ∧
      docs.head? = some firstDoc ∧
      etag = hexEncode (env.md5d (copyNBytes size data)) ∧
      st1 = { st with
              disk := aset st.disk (partPathOf (objectPathOf st bucket object) partID)
                (copyNBytes size data),
              activeSession := aset st.activeSession object
                { firstDoc with
                  parts := sortParts (firstDoc.parts ++
                    [{ etag := etag, partNumber := partID,
                       size := ((copyNBytes size data).length : Int), lastModified := now }]),
                  totalParts := firstDoc.totalParts + 1 },
              journals := aset st.journals (journalPathOf (objectPathOf st bucket object))
                (docs ++
                  [{ firstDoc with
                     parts := sortParts (firstDoc.parts ++
                       [{ etag := etag, partNumber := partID,
                          size := ((copyNBytes size data).length : Int), lastModified := now }]),
                     totalParts := firstDoc.totalParts + 1 }]) } := by
  simp only [CreateObjectPart] at h
  split at h
  · simp at h
  split at h
  · simp at h
  split at h
  · simp at h
  split at h
  · simp at h
  split at h
  · simp at h
  split at h
  · simp at h
  next expectedHex heq =>
    split at h
    · simp at h
    split at h
    · simp at h
    split at h
    · simp at h
    split at h
    · simp at h
    · simp at h
    next =>
      split at h
      · simp at h
      next docs hdocs =>
        split at h
        · simp at h
        next firstDoc hhead =>
          injection h with h1 h2
          injection h2 with h2
          subst h1
          subst h2
          exact ⟨docs, firstDoc, hdocs, hhead, rfl, rfl⟩

theorem abortMultipartUpload_ok (env : Env) (st st1 : FSState)
    (bucket object uploadID : String)
    (h : AbortMultipartUpload env st bucket object uploadID = (st1, .ok ())) :
    ∃ s, alookup st.activeSession object = some s ∧
      st1 = { st with
              disk := s.parts.foldl
                (fun d p => aerase d (partPathOf (objectPathOf st bucket object) p.partNumber))
                st.disk,
              activeSession := aerase st.activeSession object,
              journals := aerase st.journals
                (journalPathOf (objectPathOf st bucket object)) } := by
  simp only [AbortMultipartUpload] at h
  split at h
  · simp at h
  split at h
  · simp at h
  split at h
  · simp at h
  split at h
  · simp at h
  split at h
  · simp at h
  next s hs =>
    injection h with h1 h2
    subst h1
    exact ⟨s, hs, rfl⟩

theorem completeMultipartUpload_ok (env : Env) (st st1 : FSState)
    (bucket object uploadID : String) (data : Bytes) (sig : Option Signature)
    (now : Nat) (meta : ObjectMetadata) (evs : List CommitEvent)
    (h : CompleteMultipartUpload env st bucket object uploadID data sig now =
          (st1, .ok meta, evs)) :
    ∃ parts concatBytes disk1 evsR docs0,
      env.parseCompleteMultipartUpload data = some parts ∧
      completedPartsIsSorted parts = true ∧
      concatParts env st.disk (objectPathOf st bucket object) parts [] = .ok concatBytes ∧
      removePartFiles (objectPathOf st bucket object) st.disk parts =
        (disk1, evsR, none) ∧
      alookup st.journals (journalPathOf (objectPathOf st bucket object)) = some docs0 ∧
      st1 = { st with
              activeSession := aerase st.activeSession object,
              disk := aset disk1 (objectPathOf st bucket object) concatBytes,
              journals := aerase st.journals
                (journalPathOf (objectPathOf st bucket object)),
              savedSession := aerase st.activeSession object } ∧
      meta = { bucket := bucket, object := object, created := now,
               size := (concatBytes.length : Int),
               contentType := "application/octet-stream",
               md5 := hexEncode (env.md5d concatBytes) } ∧
      evs = CommitEvent.deleteSessionEntry :: evsR ++
        [CommitEvent.removeJournal, CommitEvent.saveSessions,
         CommitEvent.renamePublish] := by
  simp only [CompleteMultipartUpload, SaveMultipartsSession] at h
  split at h
  · simp at h
  split at h
  · simp at h
  split at h
  · simp at h
  split at h
  · simp at h
  split at h
  · simp at h
  · simp at h
  next =>
    split at h
    · simp at h
    next parts hparse =>
      split at h
      · simp at h
      next hsorted =>
        split at h
        · simp at h
        next concatBytes hconcat =>
          split at h
          next disk1 evsR e hremove =>
            simp at h
          next disk1 evsR hremove =>
            split at h
            · simp at h
            next docs0 hdocs =>
              injection h with h1 h2
              injection h2 with h2 h3
              injection h2 with h2
              subst h1
              subst h2
              subst h3
              refine ⟨parts, concatBytes, disk1, evsR, docs0, hparse, ?_, hconcat,
                hremove, hdocs, rfl, rfl, rfl⟩
              simpa using hsorted

theorem objectPathOf_congr (st st2 : FSState) (bucket object : String)
    (h : st2.root = st.root) :
    objectPathOf st2 bucket object = objectPathOf st bucket object := by
  simp [objectPathOf, bucketPathOf, h]

theorem c1_run_inv (env : Env) (bucket object u op : String) (B : List String) :
    ∀ (calls : List CreateCall) (st st2 : FSState),
      runCreates env bucket object u st calls = some st2 →
      objectPathOf st bucket object = op → st.buckets = B →
      (∃ s0 tail, alookup st.journals (journalPathOf op) = some (s0 :: tail) ∧
        s0.totalParts = 0 ∧ s0.uploadID = u) →
      (∃ s, alookup st.activeSession object = some s ∧ s.uploadID = u) →
      objectPathOf st2 bucket object = op ∧ st2.buckets = B ∧
      (∃ s0 tail, alookup st2.journals (journalPathOf op) = some (s0 :: tail) ∧
        s0.totalParts = 0 ∧ s0.uploadID = u) ∧
      (∃ s, alookup st2.activeSession object = some s ∧ s.uploadID = u) := by
  intro calls
  induction calls with
  | nil =>
    intro st st2 h hop hB hj hs
    simp only [runCreates] at h
    injection h with h
    subst h
    exact ⟨hop, hB, hj, hs⟩
  | cons c rest ih =>
    intro st st2 h hop hB hj hs
    simp only [runCreates] at h
    cases hc : CreateObjectPart env st bucket object u c.expectedMD5 c.partID
        c.size c.data c.signature c.now with
    | mk stm r =>
      rw [hc] at h
      cases r with
      | err e => simp at h
      | panicked => simp at h
      | ok e =>
        obtain ⟨docs, firstDoc, hdocs, hhead, hetag, hst1⟩ :=
          createObjectPart_ok _ _ _ _ _ _ _ _ _ _ _ _ _ hc
        obtain ⟨s0, tail, hj0, h00, h0u⟩ := hj
        rw [hop] at hdocs
        rw [hj0] at hdocs
        injection hdocs with hdocs
        subst hdocs
        rw [show (s0 :: tail).head? = some s0 from rfl] at hhead
        injection hhead with hhead
        subst hhead
        refine ih stm st2 h ?_ ?_ ?_ ?_
        · rw [hst1]
          simpa [objectPathOf, bucketPathOf] using hop
        · rw [hst1]
          simpa using hB
        · rw [hst1]
          simp only [hop, alookup_aset_self, List.cons_append]
          exact ⟨s0, _, rfl, h00, h0u⟩
        · rw [hst1]
          simp only [alookup_aset_self]
          exact ⟨_, rfl, by simpa using h0u⟩

/-- C1 (amended): after NewMultipartUpload and any sequence of successful
CreateObjectPart calls for the same object, ListObjectParts with the
default markers returns an empty parts list, whatever was uploaded.
CreateObjectPart decodes only the first journal document (the initial
zero-part descriptor) and appends its update after the existing documents
without truncation, and ListObjectParts likewise decodes only the first
document, whose TotalParts is still 0, so its range loop never runs. -/
theorem c1_list_parts_empty (env : Env) (st0 st1 st2 : FSState)
    (bucket object u : String) (now : Nat) (calls : List CreateCall)
    (resources : ObjectResourcesMetadata)
    (hnew : NewMultipartUpload env st0 bucket object u now = (st1, .ok u))
    (hrun : runCreates env bucket object u st1 calls = some st2)
    (hres : resources.uploadID = u)
    (hmark : resources.partNumberMarker = 0) :
    ListObjectParts env st2 bucket object resources =
      .ok { resources with bucket := bucket, object := object, part := [] } := by
  obtain ⟨-, hst1, hvb, hvo, hbk, -⟩ := newMultipartUpload_ok _ _ _ _ _ _ _ _ hnew
  have hop1 : objectPathOf st1 bucket object = objectPathOf st0 bucket object := by
    rw [hst1]
    simp [objectPathOf, bucketPathOf]
  have hB1 : st1.buckets = st0.buckets := by rw [hst1]
  have hj1 : ∃ s0 tail, alookup st1.journals
      (journalPathOf (objectPathOf st0 bucket object)) = some (s0 :: tail) ∧
      s0.totalParts = 0 ∧ s0.uploadID = u := by
    rw [hst1]
    simp only [alookup_aset_self]
    exact ⟨_, [], rfl, rfl, rfl⟩
  have hs1 : ∃ s, alookup st1.activeSession object = some s ∧ s.uploadID = u := by
    rw [hst1]
    simp only [alookup_aset_self]
    exact ⟨_, rfl, rfl⟩
  obtain ⟨hop2, hB2, ⟨s0, tail, hj2, h00, h0u⟩, ⟨s, hs2, hsu⟩⟩ :=
    c1_run_inv env bucket object u (objectPathOf st0 bucket object) st0.buckets
      calls st1 st2 hrun hop1 hB1 hj1 hs1
  have hvalid : isValidUploadID st2 object resources.uploadID = true := by
    simp [isValidUploadID, hs2, hres, hsu]
  have hfuel : ((0 : Int) - 1 + 1).toNat = 0 := rfl
  have hmem : bucket ∈ st0.buckets := by simpa using hbk
  simp [ListObjectParts, hvb, hvo, hvalid, hB2, hmem, hmark, hop2, hj2, h00, hfuel,
    listPartsLoop, sortParts, insertionSort]

/-- C1, counterexample: in the concrete scenario, NewMultipartUpload is
followed by two successful CreateObjectPart calls with ascending partIDs
1..2 (five bytes each), yet ListObjectParts with default markers returns
zero parts, not the claimed N = 2 parts with their sizes. -/
theorem c1_counterexample :
    (runCreates demoEnv "b" "o" "u" c1St1 c1Calls).isSome = true ∧
    goPart? (ListObjectParts demoEnv c1St2 "b" "o" { uploadID := "u" }) = some [] :=
  ⟨by decide, by decide⟩

/-- Witness for C1: the amended theorem at the concrete two-part
scenario. -/
theorem c1_list_parts_empty_witness :
    ListObjectParts demoEnv c1St2 "b" "o" { uploadID := "u" } =
      .ok { ({ uploadID := "u" } : ObjectResourcesMetadata) with
            bucket := "b", object := "o", part := [] } :=
  c1_list_parts_empty demoEnv c1St0 c1St1 c1St2 "b" "o" "u" 0 c1Calls
    { uploadID := "u" } (by decide) (by decide) rfl rfl

/-- C2 (amended): the session map is persisted via SaveMultipartsSession
only by NewMultipartUpload and CompleteMultipartUpload; a successful
CreateObjectPart or AbortMultipartUpload mutates the in-memory map but
leaves the persisted copy exactly as it was before the call. -/
theorem c2_save_only_new_and_complete (env : Env) (st : FSState)
    (bucket object uploadID expectedMD5Sum : String) (partID size : Int)
    (pdata cdata : Bytes) (sig1 sig2 : Option Signature)
    (now1 now2 now3 : Nat) (u : String) :
    (∀ st1 r, NewMultipartUpload env st bucket object u now1 = (st1, .ok r) →
      st1.savedSession = st1.activeSession) ∧
    (∀ st1 meta evs,
      CompleteMultipartUpload env st bucket object uploadID cdata sig2 now2 =
        (st1, .ok meta, evs) →
      st1.savedSession = st1.activeSession) ∧
    (∀ st1 etag,
      CreateObjectPart env st bucket object uploadID expectedMD5Sum partID size
        pdata sig1 now3 = (st1, .ok etag) →
      st1.savedSession = st.savedSession) ∧
    (∀ st1, AbortMultipartUpload env st bucket object uploadID = (st1, .ok ()) →
      st1.savedSession = st.savedSession) := by
  refine ⟨?_, ?_, ?_, ?_⟩
  · intro st1 r h
    obtain ⟨-, hst1, -⟩ := newMultipartUpload_ok _ _ _ _ _ _ _ _ h
    rw [hst1]
  · intro st1 meta evs h
    obtain ⟨p, cb, d1, evsR, docs0, -, -, -, -, -, hst1, -, -⟩ :=
      completeMultipartUpload_ok _ _ _ _ _ _ _ _ _ _ _ h
    rw [hst1]
  · intro st1 etag h
    obtain ⟨docs, fd, -, -, -, hst1⟩ := createObjectPart_ok _ _ _ _ _ _ _ _ _ _ _ _ _ h
    rw [hst1]
  · intro st1 h
    obtain ⟨sx, -, hst1⟩ := abortMultipartUpload_ok _ _ _ _ _ _ h
    rw [hst1]

/-- C2, counterexample: from a state whose persisted map equals the
in-memory map, a successful CreateObjectPart leaves the two different — it
never calls SaveMultipartsSession. -/
theorem c2_counterexample :
    c3St.savedSession = c3St.activeSession ∧
    (CreateObjectPart demoEnv c3St "b" "o" "u" "" 4 1 [5] none 9).2 = .ok "05" ∧
    (CreateObjectPart demoEnv c3St "b" "o" "u" "" 4 1 [5] none 9).1.savedSession ≠
      (CreateObjectPart demoEnv c3St "b" "o" "u" "" 4 1 [5] none 9).1.activeSession :=
  ⟨by decide, by decide, by decide⟩

/-- Witness for C2: all four implications of the amended theorem discharged
on the concrete session state. -/
theorem c2_save_only_new_and_complete_witness :
    (NewMultipartUpload c3Env c3St "b" "o" "u2" 0).1.savedSession =
      (NewMultipartUpload c3Env c3St "b" "o" "u2" 0).1.activeSession ∧
    (CompleteMultipartUpload c3Env c3St "b" "o" "u" [1] none 7).1.savedSession =
      (CompleteMultipartUpload c3Env c3St "b" "o" "u" [1] none 7).1.activeSession ∧
    (CreateObjectPart c3Env c3St "b" "o" "u" "" 4 1 [5] none 9).1.savedSession =
      c3St.savedSession ∧
    (AbortMultipartUpload c3Env c3St "b" "o" "u").1.savedSession =
      c3St.savedSession := by
  obtain ⟨h1, h2, h3, h4⟩ := c2_save_only_new_and_complete c3Env c3St "b" "o" "u"
    "" 4 1 [5] [1] none none 0 7 9 "u2"
  refine ⟨h1 _ "u2" (by decide), ?_, h3 _ "05" (by decide), h4 _ (by decide)⟩
  exact h2 _
    { bucket := "b", object := "o", created := 7, size := 10,
      contentType := "application/octet-stream", md5 := "6865" }
    [CommitEvent.deleteSessionEntry, CommitEvent.removePartFile 1,
     CommitEvent.removePartFile 2, CommitEvent.removeJournal,
     CommitEvent.saveSessions, CommitEvent.renamePublish] (by decide)

/-- C3 (amended): a successful CompleteMultipartUpload leaves at the object
path exactly the byte-wise concatenation, in manifest order, of the
contents of the part files referenced by the manifest, with the returned
metadata's md5 the hex MD5 of that concatenation and its size its length;
afterwards no manifest-referenced part file and no session journal for the
object remain on disk and the object's session map entry is gone. Part
files of the object that the manifest does not reference are untouched and
remain. -/
theorem c3_commit_postconditions (env : Env) (st st1 : FSState)
    (bucket object uploadID : String) (data : Bytes) (sig : Option Signature)
    (now : Nat) (meta : ObjectMetadata) (evs : List CommitEvent)
    (parts : List CompletePart)
    (h : CompleteMultipartUpload env st bucket object uploadID data sig now =
          (st1, .ok meta, evs))
    (hp : env.parseCompleteMultipartUpload data = some parts) :
    (alookup st1.disk (objectPathOf st bucket object)).isSome = true ∧
    referencedConcat st.disk (objectPathOf st bucket object) parts =
      alookup st1.disk (objectPathOf st bucket object) ∧
    meta.md5 = hexEncode (env.md5d
      ((alookup st1.disk (objectPathOf st bucket object)).getD [])) ∧
    meta.size = (((alookup st1.disk (objectPathOf st bucket object)).getD []).length : Int) ∧
    (∀ p ∈ parts,
      alookup st1.disk (partPathOf (objectPathOf st bucket object) p.partNumber) = none) ∧
    alookup st1.journals (journalPathOf (objectPathOf st bucket object)) = none ∧
    alookup st1.activeSession object = none := by
  obtain ⟨parts0, cb, disk1, evsR, docs0, hparse, hsorted, hconcat, hremove, hdocs,
    hst1, hmeta, hevs⟩ := completeMultipartUpload_ok _ _ _ _ _ _ _ _ _ _ _ h
  rw [hparse] at hp
  injection hp with hp
  subst hp
  obtain ⟨t, ht, hb⟩ := concatParts_referenced _ _ _ _ _ _ hconcat
  rw [List.nil_append] at hb
  subst hb
  have hobj : alookup st1.disk (objectPathOf st bucket object) = some cb := by
    rw [hst1]
    simp [alookup_aset_self]
  refine ⟨by rw [hobj]; rfl, by rw [hobj, ht], ?_, ?_, ?_, ?_, ?_⟩
  · rw [hobj, hmeta]
    rfl
  · rw [hobj, hmeta]
    rfl
  · intro p hpmem
    rw [hst1]
    simp only
    rw [alookup_aset_ne]
    · exact removePartFiles_ok_removed _ _ _ _ _ hremove p hpmem
    · exact fun hh => objectPath_ne_partPath _ _ hh.symm
  · rw [hst1]
    simp [alookup_aerase_self]
  · rw [hst1]
    simp [alookup_aerase_self]

/-- C3, counterexample: the commit succeeds, yet the part file o dollar 3 —
present on disk for this object but absent from the manifest — remains
afterwards, contradicting that no part file for the object remains. -/
theorem c3_counterexample :
    isOkMeta (CompleteMultipartUpload c3Env c3St "b" "o" "u" [1] none 7).2.1 = true ∧
    alookup (CompleteMultipartUpload c3Env c3St "b" "o" "u" [1] none 7).1.disk
      "r/b/o$3" = some [9] :=
  ⟨by decide, by decide⟩

/-- Witness for C3: the amended theorem at the concrete commit scenario. -/
theorem c3_commit_postconditions_witness :
    referencedConcat c3St.disk (objectPathOf c3St "b" "o") c3Manifest =
      alookup (CompleteMultipartUpload c3Env c3St "b" "o" "u" [1] none 7).1.disk
        (objectPathOf c3St "b" "o") ∧
    alookup (CompleteMultipartUpload c3Env c3St "b" "o" "u" [1] none 7).1.journals
      (journalPathOf (objectPathOf c3St "b" "o")) = none ∧
    alookup (CompleteMultipartUpload c3Env c3St "b" "o" "u" [1] none 7).1.activeSession
      "o" = none := by
  obtain ⟨-, h2, -, -, -, h6, h7⟩ := c3_commit_postconditions c3Env c3St
    (CompleteMultipartUpload c3Env c3St "b" "o" "u" [1] none 7).1 "b" "o" "u" [1]
    none 7
    { bucket := "b", object := "o", created := 7, size := 10,
      contentType := "application/octet-stream", md5 := "6865" }
    [CommitEvent.deleteSessionEntry, CommitEvent.removePartFile 1,
     CommitEvent.removePartFile 2, CommitEvent.removeJournal,
     CommitEvent.saveSessions, CommitEvent.renamePublish]
    c3Manifest (by decide) (by decide)
  exact ⟨h2, h6, h7⟩

/-- C8: in every successful CompleteMultipartUpload the emitted step trace
is exactly: delete the session-map entry, remove each manifest part file in
manifest order, remove the session journal, persist the session map, and
last the rename that publishes the object — so the deletions all occur
strictly before the publish. -/
theorem c8_cleanup_before_publish (env : Env) (st st1 : FSState)
    (bucket object uploadID : String) (data : Bytes) (sig : Option Signature)
    (now : Nat) (meta : ObjectMetadata) (evs : List CommitEvent)
    (parts : List CompletePart)
    (h : CompleteMultipartUpload env st bucket object uploadID data sig now =
          (st1, .ok meta, evs))
    (hp : env.parseCompleteMultipartUpload data = some parts) :
    evs = CommitEvent.deleteSessionEntry ::
      (parts.map (fun p => CommitEvent.removePartFile p.partNumber) ++
       [CommitEvent.removeJournal, CommitEvent.saveSessions,
        CommitEvent.renamePublish]) := by
  obtain ⟨parts0, cb, disk1, evsR, docs0, hparse, -, -, hremove, -, -, -, hevs⟩ :=
    completeMultipartUpload_ok _ _ _ _ _ _ _ _ _ _ _ h
  rw [hparse] at hp
  injection hp with hp
  subst hp
  rw [hevs, removePartFiles_ok_events _ _ _ _ _ hremove]
  simp

/-- Witness for C8: the trace of the concrete successful commit. -/
theorem c8_cleanup_before_publish_witness :
    (CompleteMultipartUpload c3Env c3St "b" "o" "u" [1] none 7).2.2 =
      CommitEvent.deleteSessionEntry ::
        (c3Manifest.map (fun p => CommitEvent.removePartFile p.partNumber) ++
         [CommitEvent.removeJournal, CommitEvent.saveSessions,
          CommitEvent.renamePublish]) :=
  c8_cleanup_before_publish c3Env c3St
    (CompleteMultipartUpload c3Env c3St "b" "o" "u" [1] none 7).1 "b" "o" "u" [1]
    none 7
    { bucket := "b", object := "o", created := 7, size := 10,
      contentType := "application/octet-stream", md5 := "6865" }
    (CompleteMultipartUpload c3Env c3St "b" "o" "u" [1] none 7).2.2
    c3Manifest (by decide) (by decide)

/-- C9: when the signature verifier passed to CompleteMultipartUpload
reports an internal error, the object temp file is purged (the state is
returned unchanged) and the call returns an error — but the error returned
is probe.NewError applied to the nil error left by the preceding manifest
read (nilWrapped), not the verifier's error, which is dropped whatever it
was. -/
theorem c9_verifier_error_dropped (env : Env) (st : FSState)
    (bucket object uploadID : String) (data : Bytes) (f : Signature)
    (e : ErrKind) (now : Nat)
    (hvb : env.isValidBucket bucket = true)
    (hvo : env.isValidObjectName object = true)
    (hvu : isValidUploadID st object uploadID = true)
    (hbk : bucket ∈ st.buckets)
    (hsig : f (hexEncode (env.sha256d data)) = .fail e) :
    CompleteMultipartUpload env st bucket object uploadID data (some f) now =
      (st, .err .nilWrapped, []) := by
  simp [CompleteMultipartUpload, hvb, hvo, hvu, hbk, sigCheck, hsig]

/-- Witness for C9: a concrete always-failing verifier; its goError payload
never reaches the result. -/
theorem c9_verifier_error_dropped_witness :
    CompleteMultipartUpload c3Env c3St "b" "o" "u" [1] (some failSig) 7 =
      (c3St, .err .nilWrapped, []) :=
  c9_verifier_error_dropped c3Env c3St "b" "o" "u" [1] failSig
    (.goError "verifier io error") 7 (by decide) (by decide) (by decide)
    (by decide) rfl

theorem completedPartsIsSorted_eq (parts : List CompletePart) :
    completedPartsIsSorted parts =
      strictlyAscending (parts.map (fun p => p.partNumber)) := by
  induction parts with
  | nil => rfl
  | cons a rest ih =>
    cases rest with
    | nil => rfl
    | cons b rest2 =>
      simp only [List.map_cons] at ih ⊢
      simp only [completedPartsIsSorted, strictlyAscending, completedPartsLess]
      rw [ih]
      congr 1
      by_cases h : a.partNumber < b.partNumber
      · simp [h, show ¬ b.partNumber ≤ a.partNumber by omega]
      · simp [h, show b.partNumber ≤ a.partNumber by omega]

/-- C5: once a CompleteMultipartUpload call reaches the order check
(names, uploadID, bucket and signature valid, manifest parses), it fails
with InvalidPartOrder exactly when the manifest's partNumbers are not
strictly ascending — in particular a manifest with two consecutive entries
of equal partNumber is rejected with InvalidPartOrder. On that failure the
object temp file is purged and the state returned unchanged, so the call
puts no file at the object path: if none was there before, none is there
afterwards. -/
theorem c5_invalid_part_order_iff (env : Env) (st : FSState)
    (bucket object uploadID : String) (data : Bytes) (sig : Option Signature)
    (now : Nat) (parts : List CompletePart)
    (hvb : env.isValidBucket bucket = true)
    (hvo : env.isValidObjectName object = true)
    (hvu : isValidUploadID st object uploadID = true)
    (hbk : bucket ∈ st.buckets)
    (hsig : sigCheck sig (hexEncode (env.sha256d data)) = .ok)
    (hp : env.parseCompleteMultipartUpload data = some parts) :
    ((CompleteMultipartUpload env st bucket object uploadID data sig now).2.1 =
        .err .invalidPartOrder ↔
      strictlyAscending (parts.map (fun p => p.partNumber)) = false) ∧
    (strictlyAscending (parts.map (fun p => p.partNumber)) = false →
      CompleteMultipartUpload env st bucket object uploadID data sig now =
        (st, .err .invalidPartOrder, []) ∧
      (alookup st.disk (objectPathOf st bucket object) = none →
        alookup (CompleteMultipartUpload env st bucket object uploadID data sig
          now).1.disk (objectPathOf st bucket object) = none)) := by
  rw [← completedPartsIsSorted_eq]
  cases hs : completedPartsIsSorted parts with
  | false =>
    have hres : CompleteMultipartUpload env st bucket object uploadID data sig now =
        (st, .err .invalidPartOrder, []) := by
      simp [CompleteMultipartUpload, hvb, hvo, hvu, hbk, hsig, hp, hs]
    refine ⟨by simp [hres], fun _ => ⟨hres, ?_⟩⟩
    intro hnone
    rw [hres]
    exact hnone
  | true =>
    have hne : (CompleteMultipartUpload env st bucket object uploadID data sig now).2.1 ≠
        .err .invalidPartOrder := by
      simp only [CompleteMultipartUpload]
      simp only [hvb, hvo, hvu, hsig, hp, hs]
      simp only [show (!true) = false from rfl, Bool.false_eq_true, if_false]
      have hmem : st.buckets.contains bucket = true := by simpa using hbk
      simp only [hmem, show (!true) = false from rfl, Bool.false_eq_true, if_false]
      cases hc : concatParts env st.disk (objectPathOf st bucket object) parts [] with
      | error e =>
        simp only [hc]
        have hno := concatParts_no_order_error env st.disk _ parts [] e hc
        simp [hno]
      | ok cb =>
        simp only [hc]
        cases hr : removePartFiles (objectPathOf st bucket object) st.disk parts with
        | mk disk1 rest2 =>
          obtain ⟨evs2, e?⟩ := rest2
          cases e? with
          | some e =>
            simp only [hr]
            have he := removePartFiles_err_no_order _ _ _ _ _ _ hr
            simp [he]
          | none =>
            simp only [hr]
            cases hj : alookup st.journals (journalPathOf (objectPathOf st bucket object)) with
            | none => simp [hj]
            | some v => simp [hj]
    exact ⟨iff_of_false hne (by simp), fun hh => absurd hh (by simp)⟩

/-- Witness for C5: the duplicate-partNumber manifest (two entries of
partNumber 1) is not strictly ascending and is rejected with
InvalidPartOrder, leaving the state — and the empty object path —
unchanged. -/
theorem c5_invalid_part_order_iff_witness :
    CompleteMultipartUpload c5Env c3St "b" "o" "u" [2] none 7 =
      (c3St, .err .invalidPartOrder, []) := by
  obtain ⟨-, h2⟩ := c5_invalid_part_order_iff c5Env c3St "b" "o" "u" [2] none 7
    c5Manifest (by decide) (by decide) (by decide) (by decide) rfl rfl
  exact (h2 (by decide)).1

/-- C6 (amended): when expectedMD5 is non-empty, base64-decodes, and its
hex form differs case-insensitively from the MD5 of the streamed bytes,
CreateObjectPart fails with BadDigest and the entire state — disk,
journals, session map and persisted map — is exactly as before the call:
the AtomicFile is purged before any rename, so the call creates no file at
the part path. A file already at the part path from an earlier upload of
the same partID is untouched and remains, so the part path is not
necessarily empty afterwards. -/
theorem c6_bad_digest_unchanged (env : Env) (st : FSState)
    (bucket object uploadID expectedMD5Sum : String) (partID size : Int)
    (data : Bytes) (sig : Option Signature) (now : Nat) (ebytes : Bytes)
    (hguard : st.diskGuardLow = false)
    (hpid : 0 < partID)
    (hvb : env.isValidBucket bucket = true)
    (hvo : env.isValidObjectName object = true)
    (hvu : isValidUploadID st object uploadID = true)
    (hne : trimSpace expectedMD5Sum ≠ "")
    (hdec : env.b64Decode (trimSpace expectedMD5Sum) = some ebytes)
    (hbk : bucket ∈ st.buckets)
    (hlen : ¬(size > 0 ∧ (data.length : Int) < size))
    (hbad : isMD5SumEqual (hexEncode ebytes)
      (hexEncode (env.md5d (copyNBytes size data))) = false) :
    CreateObjectPart env st bucket object uploadID expectedMD5Sum partID size
      data sig now = (st, .err (.badDigest (hexEncode ebytes))) := by
  have hpid2 : ¬ partID ≤ 0 := by omega
  simp [CreateObjectPart, hguard, hpid2, hvb, hvo, hvu, hne, hdec, hbk, hlen, hbad]

/-- C6, counterexample: the failed re-upload of part 1 with a mismatching
digest returns BadDigest and touches nothing, so the part file published by
the earlier upload of part 1 still exists at the part path afterwards —
the part path is not empty. -/
theorem c6_counterexample :
    (CreateObjectPart demoEnv c3St "b" "o" "u" "QUE=" 1 5 (strBytes "xyzzy")
      none 9).2 = .err (.badDigest "4141") ∧
    alookup (CreateObjectPart demoEnv c3St "b" "o" "u" "QUE=" 1 5
      (strBytes "xyzzy") none 9).1.disk "r/b/o$1" = some (strBytes "hello") :=
  ⟨by decide, by decide⟩

/-- Witness for C6: the amended theorem at the concrete mismatching call. -/
theorem c6_bad_digest_unchanged_witness :
    CreateObjectPart demoEnv c3St "b" "o" "u" "QUE=" 1 5 (strBytes "xyzzy")
      none 9 = (c3St, .err (.badDigest "4141")) :=
  c6_bad_digest_unchanged demoEnv c3St "b" "o" "u" "QUE=" 1 5 (strBytes "xyzzy")
    none 9 [65, 65] rfl (by decide) (by decide) (by decide) (by decide)
    (by decide) (by decide) (by decide) (by decide) (by decide)

/-- C7 (amended): with a valid session for the object, a first
AbortMultipartUpload succeeds and removes the part file of every part
recorded in the in-memory session (a missing file is not an error), the
session journal, and the map entry; a second AbortMultipartUpload for the
same object returns InvalidUploadID with no state change. Because
CreateObjectPart rebuilds the stored descriptor from the journal's first
document plus only the latest part, after N uploads the session records
just the most recent part, so the abort removes only that part's file and
earlier part files survive. -/
theorem c7_abort_twice (env : Env) (st : FSState)
    (bucket object uploadID : String) (s : MultipartSession)
    (hvb : env.isValidBucket bucket = true)
    (hvo : env.isValidObjectName object = true)
    (hs : alookup st.activeSession object = some s)
    (hu : s.uploadID = uploadID)
    (hbk : bucket ∈ st.buckets) :
    (AbortMultipartUpload env st bucket object uploadID).2 = .ok () ∧
    (∀ p ∈ s.parts,
      alookup (AbortMultipartUpload env st bucket object uploadID).1.disk
        (partPathOf (objectPathOf st bucket object) p.partNumber) = none) ∧
    alookup (AbortMultipartUpload env st bucket object uploadID).1.journals
      (journalPathOf (objectPathOf st bucket object)) = none ∧
    alookup (AbortMultipartUpload env st bucket object uploadID).1.activeSession
      object = none ∧
    AbortMultipartUpload env (AbortMultipartUpload env st bucket object uploadID).1
      bucket object uploadID =
      ((AbortMultipartUpload env st bucket object uploadID).1,
       .err (.invalidUploadID uploadID)) := by
  have hvu : isValidUploadID st object uploadID = true := by
    simp [isValidUploadID, hs, hu]
  have habort : AbortMultipartUpload env st bucket object uploadID =
      ({ st with
         disk := s.parts.foldl
           (fun d p => aerase d (partPathOf (objectPathOf st bucket object) p.partNumber))
           st.disk,
         activeSession := aerase st.activeSession object,
         journals := aerase st.journals
           (journalPathOf (objectPathOf st bucket object)) }, .ok ()) := by
    simp [AbortMultipartUpload, hvb, hvo, hvu, hbk, hs]
  rw [habort]
  refine ⟨rfl, ?_, ?_, ?_, ?_⟩
  · intro p hp
    exact foldl_aerase_removed _ _ _ _ hp
  · exact alookup_aerase_self _ _
  · exact alookup_aerase_self _ _
  · have hvu2 : isValidUploadID
        { st with
          disk := s.parts.foldl
            (fun d p => aerase d (partPathOf (objectPathOf st bucket object) p.partNumber))
            st.disk,
          activeSession := aerase st.activeSession object,
          journals := aerase st.journals
            (journalPathOf (objectPathOf st bucket object)) } object uploadID = false := by
      simp [isValidUploadID, alookup_aerase_self]
    simp [AbortMultipartUpload, hvb, hvo, hvu2]

/-- C7, counterexample: after uploading parts 1 and 2, the first abort
succeeds but the part file of part 1 is still on disk afterwards — the
in-memory session recorded only the latest part, so the abort did not
remove every part file for the object. -/
theorem c7_counterexample :
    (AbortMultipartUpload demoEnv c1St2 "b" "o" "u").2 = .ok () ∧
    alookup (AbortMultipartUpload demoEnv c1St2 "b" "o" "u").1.disk "r/b/o$1" =
      some (strBytes "hello") :=
  ⟨by decide, by decide⟩

/-- Witness for C7: the amended theorem at the concrete two-part state. -/
theorem c7_abort_twice_witness :
    (AbortMultipartUpload demoEnv c1St2 "b" "o" "u").2 = .ok () ∧
    alookup (AbortMultipartUpload demoEnv c1St2 "b" "o" "u").1.journals
      (journalPathOf (objectPathOf c1St2 "b" "o")) = none ∧
    AbortMultipartUpload demoEnv (AbortMultipartUpload demoEnv c1St2 "b" "o" "u").1
      "b" "o" "u" =
      ((AbortMultipartUpload demoEnv c1St2 "b" "o" "u").1,
       .err (.invalidUploadID "u")) := by
  obtain ⟨h1, -, h3, -, h5⟩ := c7_abort_twice demoEnv c1St2 "b" "o" "u"
    { totalParts := 1, uploadID := "u", initiated := 0,
      parts := [{ etag := "776f", partNumber := 2, size := 5, lastModified := 2 }] }
    (by decide) (by decide) (by decide) rfl (by decide)
  exact ⟨h1, h3, h5⟩

theorem listPartsLoop_no_panic (sessParts : List PartMetadata) (maxParts : Int) :
    ∀ (fuel : Nat) (i : Int) (acc : List PartMetadata),
      1 ≤ i → (fuel : Int) + i ≤ (sessParts.length : Int) + 1 →
      listPartsLoop sessParts maxParts fuel i acc ≠ .panicked := by
  intro fuel
  induction fuel with
  | zero =>
    intro i acc h1 h2
    simp [listPartsLoop]
  | succ n ih =>
    intro i acc h1 h2
    simp only [listPartsLoop]
    split
    · simp
    split
    · exact ih (i + 1) _ (by omega) (by push_cast at h2 ⊢; omega)
    next hcond =>
      exfalso
      apply hcond
      constructor
      · omega
      · push_cast at h2
        omega

/-- C10 (amended): every descriptor the engine writes — the initial journal
document of NewMultipartUpload, the document appended by CreateObjectPart,
and the map entries — satisfies TotalParts = length of Parts; and for every
partNumberMarker ≥ 0 the index Parts at i minus one read by ListObjectParts
stays in bounds, so it never faults. But the loop starts at the marker
itself when it is nonzero (not at its max with 1), so a negative
partNumberMarker makes the first access out of bounds and ListObjectParts
faults. -/
theorem c10_wf_and_bounds (env : Env) (st : FSState)
    (bucket object u uploadID em : String) (pid sz : Int) (pdata : Bytes)
    (sig : Option Signature) (now1 : Nat) (now2 : Nat) :
    (∀ st1 r, NewMultipartUpload env st bucket object u now1 = (st1, .ok r) →
      (∀ docs, alookup st1.journals
          (journalPathOf (objectPathOf st bucket object)) = some docs →
        ∀ d ∈ docs, sessWF d) ∧
      (∀ s2, alookup st1.activeSession object = some s2 → sessWF s2)) ∧
    (∀ st1 etag,
      CreateObjectPart env st bucket object uploadID em pid sz pdata sig now2 =
        (st1, .ok etag) →
      ∀ docs, alookup st.journals
          (journalPathOf (objectPathOf st bucket object)) = some docs →
        (∀ d ∈ docs, sessWF d) →
        (∀ docs1, alookup st1.journals
            (journalPathOf (objectPathOf st bucket object)) = some docs1 →
          ∀ d ∈ docs1, sessWF d) ∧
        (∀ s2, alookup st1.activeSession object = some s2 → sessWF s2)) ∧
    (∀ resources : ObjectResourcesMetadata, 0 ≤ resources.partNumberMarker →
      (∀ docs d, alookup st.journals
          (journalPathOf (objectPathOf st bucket object)) = some docs →
        docs.head? = some d → sessWF d) →
      ListObjectParts env st bucket object resources ≠ .panicked) := by
  refine ⟨?_, ?_, ?_⟩
  · intro st1 r h
    obtain ⟨-, hst1, -⟩ := newMultipartUpload_ok _ _ _ _ _ _ _ _ h
    constructor
    · intro docs hdocs d hd
      rw [hst1] at hdocs
      simp only [alookup_aset_self] at hdocs
      injection hdocs with hdocs
      subst hdocs
      simp only [List.mem_singleton] at hd
      subst hd
      rfl
    · intro s2 hs2
      rw [hst1] at hs2
      simp only [alookup_aset_self] at hs2
      injection hs2 with hs2
      subst hs2
      rfl
  · intro st1 etag h docs hdocs hwf
    obtain ⟨docs2, firstDoc, hdocs2, hhead, hetag, hst1⟩ :=
      createObjectPart_ok _ _ _ _ _ _ _ _ _ _ _ _ _ h
    rw [hdocs] at hdocs2
    injection hdocs2 with hdocs2
    subst hdocs2
    have hfdmem : firstDoc ∈ docs := by
      cases docs with
      | nil => simp at hhead
      | cons d0 t =>
        simp only [List.head?_cons] at hhead
        injection hhead with hhead
        subst hhead
        exact List.mem_cons_self _ _
    have hwfnew : sessWF
        { firstDoc with
          parts := sortParts (firstDoc.parts ++
            [{ etag := etag, partNumber := pid,
               size := ((copyNBytes sz pdata).length : Int), lastModified := now2 }]),
          totalParts := firstDoc.totalParts + 1 } := by
      have hwf0 := hwf firstDoc hfdmem
      unfold sessWF at hwf0 ⊢
      simp only [sortParts, length_insertionSort, List.length_append,
        List.length_singleton]
      push_cast
      omega
    constructor
    · intro docs1 hdocs1 d hd
      rw [hst1] at hdocs1
      simp only [alookup_aset_self] at hdocs1
      injection hdocs1 with hdocs1
      subst hdocs1
      rcases List.mem_append.mp hd with hold | hnew
      · exact hwf d hold
      · simp only [List.mem_singleton] at hnew
        subst hnew
        exact hwfnew
    · intro s2 hs2
      rw [hst1] at hs2
      simp only [alookup_aset_self] at hs2
      injection hs2 with hs2
      subst hs2
      exact hwfnew
  · intro resources hmarker hwf
    simp only [ListObjectParts]
    split
    · simp
    split
    · simp
    split
    · simp
    split
    · simp
    cases hj : alookup st.journals
        (journalPathOf (objectPathOf st bucket object)) with
    | none => simp [hj]
    | some docs =>
      simp only [hj]
      cases hh : docs.head? with
      | none => simp [hh]
      | some d =>
        simp only [hh]
        have hwfd := hwf docs d hj hh
        unfold sessWF at hwfd
        set start : Int :=
          if resources.partNumberMarker = (0 : Int) then 1
          else resources.partNumberMarker with hstart
        have hstart1 : 1 ≤ start := by
          rw [hstart]
          split
          · omega
          · omega
        by_cases hf : (d.totalParts - start + 1).toNat = 0
        · rw [hf]
          simp [listPartsLoop]
        · have hb : ((d.totalParts - start + 1).toNat : Int) + start ≤
              (d.parts.length : Int) + 1 := by
            omega
          have := listPartsLoop_no_panic d.parts resources.maxParts
            (d.totalParts - start + 1).toNat start [] hstart1 hb
          intro hcontra
          apply this
          split at hcontra
          · exact absurd hcontra (by simp)
          · exact absurd hcontra (by simp)
          · assumption

/-- C10, counterexample: on a freshly initiated session — whose journal
head descriptor is well formed with TotalParts = 0 — a ListObjectParts call
with partNumberMarker = minus 1 starts its loop at minus 1 (not at
max(marker, 1)) and reads Parts at index minus 2, an out-of-range access:
the call faults. -/
theorem c10_counterexample :
    sessWF { totalParts := 0, uploadID := "u", initiated := 0, parts := [] } ∧
    ListObjectParts demoEnv c1St1 "b" "o"
      { uploadID := "u", partNumberMarker := -1 } = .panicked :=
  ⟨rfl, by decide⟩

/-- Witness for C10: the amended theorem's safety conjunct at the fresh
session with the default marker. -/
theorem c10_wf_and_bounds_witness :
    ListObjectParts demoEnv c1St1 "b" "o" { uploadID := "u" } ≠ .panicked := by
  obtain ⟨-, -, h3⟩ := c10_wf_and_bounds demoEnv c1St1 "b" "o" "u" "u" "" 1 5
    (strBytes "xy") none 0 1
  refine h3 { uploadID := "u" } (by decide) ?_
  intro docs d hj hh
  have hconc : alookup c1St1.journals (journalPathOf (objectPathOf c1St1 "b" "o")) =
      some [{ totalParts := 0, uploadID := "u", initiated := 0, parts := [] }] := by
    decide
  rw [hconc] at hj
  injection hj with hj
  subst hj
  simp only [List.head?_cons] at hh
  injection hh with hh
  subst hh
  rfl

theorem hasPrefixChars_nil (l : List Char) : hasPrefixChars l [] = true := by
  cases l <;> rfl

theorem strStarts_empty (s : String) : strStarts s "" = true :=
  hasPrefixChars_nil s.data

theorem listUploadsLoop_all (res : BucketMultipartResourcesMetadata) (k : Nat)
    (hk : res.maxUploads = (k : Int)) (hpfx : res.prefixKey = "")
    (hkm : res.keyMarker = "") :
    ∀ (es : List (String × MultipartSession)) (acc : List UploadMetadata),
      es.length + acc.length ≤ k + 1 →
      listUploadsLoop res es acc =
        { res with upload := sortUploads (acc ++ es.map (fun e => mkUpload e.1 e.2)) } := by
  intro es
  induction es with
  | nil =>
    intro acc hlen
    simp [listUploadsLoop]
  | cons e rest ih =>
    obtain ⟨o, sn⟩ := e
    intro acc hlen
    simp only [List.length_cons] at hlen
    simp only [listUploadsLoop, hpfx, strStarts_empty, if_true]
    rw [hk]
    rw [if_neg (show ¬ ((acc.length : Int) > (k : Int)) by omega)]
    simp only [hkm, ne_eq, not_true_eq_false, false_and, if_false]
    rw [ih (acc ++ [mkUpload o sn]) (by simp; omega)]
    simp [hpfx, hkm, hk, List.append_assoc]

theorem listUploadsLoop_trunc (res : BucketMultipartResourcesMetadata) (k : Nat)
    (hk : res.maxUploads = (k : Int)) (hpfx : res.prefixKey = "")
    (hkm : res.keyMarker = "") :
    ∀ (es : List (String × MultipartSession)) (acc : List UploadMetadata),
      acc.length ≤ k + 1 → k + 1 < es.length + acc.length →
      ∃ e rest2,
        es.drop (k + 1 - acc.length) = e :: rest2 ∧
        listUploadsLoop res es acc =
          { res with
            upload := sortUploads (acc ++
              (es.take (k + 1 - acc.length)).map (fun x => mkUpload x.1 x.2)),
            nextKeyMarker := e.1, nextUploadIDMarker := e.2.uploadID,
            isTruncated := true } := by
  intro es
  induction es with
  | nil =>
    intro acc hacc hlen
    simp only [List.length_nil] at hlen
    omega
  | cons e rest ih =>
    obtain ⟨o, sn⟩ := e
    intro acc hacc hlen
    simp only [List.length_cons] at hlen
    by_cases hfull : acc.length = k + 1
    · refine ⟨(o, sn), rest, ?_, ?_⟩
      · rw [show k + 1 - acc.length = 0 by omega]
        rfl
      · simp only [listUploadsLoop, hpfx, strStarts_empty, if_true]
        rw [hk]
        rw [if_pos (show (acc.length : Int) > (k : Int) by omega)]
        rw [show k + 1 - acc.length = 0 by omega]
        simp [hk]
    · have hle : acc.length ≤ k := by omega
      obtain ⟨e2, rest2, hdrop, hloop⟩ := ih (acc ++ [mkUpload o sn])
        (by simp; omega) (by simp; omega)
      have hidx : k + 1 - acc.length = (k - acc.length) + 1 := by omega
      have hidx2 : k + 1 - (acc ++ [mkUpload o sn]).length = k - acc.length := by
        simp
      refine ⟨e2, rest2, ?_, ?_⟩
      · rw [hidx, List.drop_succ_cons]
        rw [hidx2] at hdrop
        exact hdrop
      · simp only [listUploadsLoop, hpfx, strStarts_empty, if_true]
        rw [hk]
        rw [if_neg (show ¬ ((acc.length : Int) > (k : Int)) by omega)]
        simp only [hkm, ne_eq, not_true_eq_false, false_and, if_false]
        rw [hloop, hidx2, hidx]
        simp [hpfx, hkm, hk, List.append_assoc]

/-- C4 (amended): with maxUploads = k, empty markers, and an empty prefix,
ListMultipartUploads returns all sessions untruncated while at most k + 1
match; as soon as more than k + 1 sessions match, it truncates only after
accumulating k + 1 entries — the length check runs before each append — so
it returns the first k + 1 matching sessions in iteration order (sorted by
key), isTruncated = true, and nextKeyMarker equal to the key of the
(k + 2)-th session in iteration order, not the first excluded one. For
five sessions a..e iterated in key order with maxUploads = 2 the result is
a, b, c with nextKeyMarker d. -/
theorem c4_truncation (env : Env) (st : FSState) (bucket : String)
    (res : BucketMultipartResourcesMetadata) (k : Nat)
    (hvb : env.isValidBucket bucket = true)
    (hbk : bucket ∈ st.buckets)
    (hk : res.maxUploads = (k : Int))
    (hpfx : res.prefixKey = "") (hkm : res.keyMarker = "") :
    (st.activeSession.length ≤ k + 1 →
      ListMultipartUploads env st bucket res =
        .ok { res with
              upload := sortUploads (st.activeSession.map (fun e => mkUpload e.1 e.2)) }) ∧
    (k + 1 < st.activeSession.length →
      ∃ e rest2, st.activeSession.drop (k + 1) = e :: rest2 ∧
        ListMultipartUploads env st bucket res =
          .ok { res with
                upload := sortUploads
                  ((st.activeSession.take (k + 1)).map (fun x => mkUpload x.1 x.2)),
                nextKeyMarker := e.1, nextUploadIDMarker := e.2.uploadID,
                isTruncated := true }) := by
  constructor
  · intro hlen
    have hall := listUploadsLoop_all res k hk hpfx hkm st.activeSession []
      (by simpa using hlen)
    simp [ListMultipartUploads, hvb, hbk, hall]
  · intro hlen
    obtain ⟨e, rest2, hdrop, hloop⟩ := listUploadsLoop_trunc res k hk hpfx hkm
      st.activeSession [] (by simp) (by simpa using hlen)
    refine ⟨e, rest2, by simpa using hdrop, ?_⟩
    simp only [List.nil_append, Nat.sub_zero] at hloop
    simp [ListMultipartUploads, hvb, hbk, hloop]

/-- C4, counterexample: five sessions under keys a..e, maxUploads = 2 —
the call returns three entries a, b, c (not two) with isTruncated = true
and nextKeyMarker d (not c, the first excluded key). -/
theorem c4_counterexample :
    ListMultipartUploads demoEnv c4St "b" { maxUploads := 2 } =
      .ok { maxUploads := 2,
            upload := [{ object := "a", uploadID := "ua", initiated := 0 },
                       { object := "b", uploadID := "ub", initiated := 0 },
                       { object := "c", uploadID := "uc", initiated := 0 }],
            nextKeyMarker := "d", nextUploadIDMarker := "ud",
            isTruncated := true } ∧
    ListMultipartUploads demoEnv c4St "b" { maxUploads := 2 } ≠
      .ok { maxUploads := 2,
            upload := [{ object := "a", uploadID := "ua", initiated := 0 },
                       { object := "b", uploadID := "ub", initiated := 0 }],
            nextKeyMarker := "c", nextUploadIDMarker := "uc",
            isTruncated := true } :=
  ⟨by decide, by decide⟩

/-- Witness for C4: the untruncated conjunct of the amended theorem at the
five-session state with maxUploads = 4. -/
theorem c4_truncation_witness :
    ListMultipartUploads demoEnv c4St "b" { maxUploads := 4 } =
      .ok { ({ maxUploads := 4 } : BucketMultipartResourcesMetadata) with
            upload := sortUploads (c4St.activeSession.map (fun e => mkUpload e.1 e.2)) } := by
  obtain ⟨h1, -⟩ := c4_truncation demoEnv c4St "b" { maxUploads := 4 } 4
    (by decide) (by decide) rfl rfl rfl
  exact h1 (by decide)
